import Mathlib

/-!
Verification of the Gemini-Cli-py agent orchestration core.

This development shallowly embeds the Python source of
`packages/core/src/gemini_cli_core` into Lean 4 and proves properties of the
embedded definitions.  Python dictionaries that represent conversation parts
are modelled by a structure with one optional field per key the code reads;
asynchronous calls that can raise are modelled by `Except`-valued collaborator
functions passed as parameters; wall-clock times, logging and telemetry are
not modelled.
-/

namespace GeminiCli

/-! ## Data model: conversation parts and contents

Embeds the untyped part dictionaries used throughout
`core/nodes/chat_nodes.py`, `utils/next_speaker.py` and the tool scheduler.
A part is a Python dict; each field below models the value found under the
corresponding key (`none` = key absent).  `other_keys` counts keys the code
under verification never reads (for example `inlineData`), so that the
Python truthiness test `not part` (dict emptiness) is representable. -/

/-- Value stored under a `function_call` key of a part
(`chat_nodes.call_model_node` reads `name` and `args`). Arguments are kept
abstract as an opaque string encoding of the Python dict. -/
structure FunctionCallData where
  name : String
  args : String
deriving DecidableEq, Repr

/-- Value stored under a `functionResponse`/`function_response` key of a part
(`tool_execution_graph.create_error_response` and
`convert_to_function_response` write `id`, `name` and a `response` dict that
holds either an `output` or an `error` entry). -/
structure FunctionResponseData where
  id : String
  name : String
  response_output : Option String
  response_error : Option String
deriving DecidableEq, Repr

/-- One conversation part (a Python dict). -/
structure Part where
  thought : Option Bool := none
  text : Option String := none
  function_call : Option FunctionCallData := none
  function_response : Option FunctionResponseData := none
  other_keys : Nat := 0
deriving DecidableEq, Repr

/-- Python truthiness of `part.get("thought")`. -/
def Part.thoughtTruthy (p : Part) : Bool := p.thought == some true

/-- Python truthiness of `not part` (the part dict is empty). -/
def Part.isEmptyDict (p : Part) : Bool :=
  p.thought.isNone && p.text.isNone && p.function_call.isNone &&
    p.function_response.isNone && p.other_keys == 0

/-- One conversation turn: `{role, parts}` with `parts` defaulting to `[]`
when the key is missing (the code always reads it via `content.get("parts", [])`). -/
structure Content where
  role : String
  parts : List Part
deriving DecidableEq, Repr

/-! ## History curation (`core/nodes/chat_nodes.py`) -/

/-- Embeds `chat_nodes.is_valid_content` (lines 43-67): the parts list must be
non-empty, no part may be an empty dict, and a part that is not a thought and
whose `text` is the empty string invalidates the content. -/
def is_valid_content (content : Content) : Bool :=
  if content.parts.isEmpty then false
  else content.parts.all fun part =>
    if part.isEmptyDict then false
    else if !part.thoughtTruthy && part.text == some "" then false
    else true

/-- Embeds `chat_nodes.is_function_response` (lines 70-77), identical to
`next_speaker._is_function_response` (lines 53-61): a `user` turn with a
non-empty parts list all of whose parts carry a function-response key. -/
def is_function_response (content : Content) : Bool :=
  content.role == "user" && !content.parts.isEmpty &&
    content.parts.all fun p => p.function_response.isSome

/-- Embeds the inner `while` loop of `extract_curated_history`
(lines 133-139): starting at the current position, collect the maximal run of
consecutive `model` turns and return it together with the remaining suffix.
The index `i` of the source is represented by the remaining suffix of the
history list. -/
def collectModelRun : List Content → List Content × List Content
  | [] => ([], [])
  | c :: rest =>
    if c.role == "model" then
      let r := collectModelRun rest
      (c :: r.1, r.2)
    else ([], c :: rest)

/-- Embeds the outer `while i < length` loop of `extract_curated_history`
(lines 125-145).  `fuel` bounds the number of outer-loop iterations the
source is allowed to run; the source itself has no such bound, so a result of
`none` for every fuel value means the Python loop never terminates.  A `user`
turn is emitted and the position advances; otherwise the consecutive `model`
run starting at the position is collected, appended if every turn in it is
valid, and otherwise the last emitted turn is popped.  Note that for a turn
whose role is neither `user` nor `model` the collected run is empty and the
position does not advance, exactly as in the source. -/
def extractGo (fuel : Nat) (remaining acc : List Content) : Option (List Content) :=
  match fuel with
  | 0 => none
  | Nat.succ fuel' =>
    match remaining with
    | [] => some acc
    | c :: rest =>
      if c.role == "user" then
        extractGo fuel' rest (acc ++ [c])
      else
        let mr := collectModelRun (c :: rest)
        if mr.1.all is_valid_content then extractGo fuel' mr.2 (acc ++ mr.1)
        else extractGo fuel' mr.2 acc.dropLast

/-- Embeds `chat_nodes.extract_curated_history` (lines 101-147).  `none`
means the source loop performed more than `fuel` outer iterations. -/
def extract_curated_history (fuel : Nat) (comprehensive_history : List Content) :
    Option (List Content) :=
  if comprehensive_history.isEmpty then some []
  else extractGo fuel comprehensive_history []

/-- A sample text part `{"text": "hi"}`. -/
def sampleTextPart : Part := { text := some "hi" }

/-- A sample bare thought part `{"thought": true}`. -/
def sampleThoughtPart : Part := { thought := some true }

/-- A sample function-response part as appended by `execute_tools_node`. -/
def sampleFunctionResponsePart : Part :=
  { function_response := some ⟨"call_0", "ls", some "ok", none⟩ }

/-! Invariant of `extractGo`: model turns in the accumulator stay valid. -/

theorem extractGo_model_valid (fuel : Nat) :
    ∀ remaining acc out,
      (∀ c ∈ acc, c.role = "model" → is_valid_content c = true) →
      extractGo fuel remaining acc = some out →
      ∀ c ∈ out, c.role = "model" → is_valid_content c = true := by
  induction fuel with
  | zero =>
    intro remaining acc out _ h
    simp [extractGo] at h
  | succ fuel ih =>
    intro remaining acc out hacc h
    match remaining with
    | [] =>
      simp only [extractGo] at h
      cases h
      exact hacc
    | c :: rest =>
      simp only [extractGo] at h
      by_cases hu : c.role = "user"
      · rw [if_pos (by simp [hu])] at h
        refine ih rest (acc ++ [c]) out ?_ h
        intro d hd hrole
        rcases List.mem_append.mp hd with hd | hd
        · exact hacc d hd hrole
        · simp only [List.mem_singleton] at hd
          subst hd
          rw [hu] at hrole
          exact absurd hrole (by decide)
      · rw [if_neg (by simp [hu])] at h
        set mr := collectModelRun (c :: rest) with hmr
        by_cases hv : mr.1.all is_valid_content = true
        · rw [if_pos hv] at h
          refine ih mr.2 (acc ++ mr.1) out ?_ h
          intro d hd hrole
          rcases List.mem_append.mp hd with hd | hd
          · exact hacc d hd hrole
          · exact List.all_eq_true.mp hv d hd
        · rw [if_neg hv] at h
          refine ih mr.2 acc.dropLast out ?_ h
          intro d hd hrole
          exact hacc d (List.dropLast_subset _ hd) hrole

/-- Claim C2 (corrected): every `model` turn in a curated history satisfies the
code's `is_valid_content` predicate — in particular no model turn with an
empty parts list, an empty part, or a non-thought part whose text is the
empty string survives curation.  (The claim's stronger statement, that a
model turn whose only parts are thought parts is dropped, is false on the
code: see the counterexample.) -/
theorem curated_history_model_turns_valid (fuel : Nat)
    (comprehensive_history out : List Content)
    (h : extract_curated_history fuel comprehensive_history = some out) :
    ∀ c ∈ out, c.role = "model" → is_valid_content c = true := by
  unfold extract_curated_history at h
  by_cases he : comprehensive_history.isEmpty
  · rw [if_pos he] at h
    cases h
    intro c hc
    cases hc
  · rw [if_neg he] at h
    exact extractGo_model_valid fuel comprehensive_history [] out (by intro c hc; cases hc) h

/-- Witness for `curated_history_model_turns_valid` at a concrete history
containing one model turn, instantiated at that turn. -/
theorem curated_history_model_turns_valid_witness :
    is_valid_content ⟨"model", [sampleTextPart]⟩ = true :=
  curated_history_model_turns_valid 3
    [⟨"user", [sampleTextPart]⟩, ⟨"model", [sampleTextPart]⟩]
    [⟨"user", [sampleTextPart]⟩, ⟨"model", [sampleTextPart]⟩]
    (by decide) ⟨"model", [sampleTextPart]⟩ (by decide) rfl

/-- Claim C2 counterexample: a `model` turn whose only part is a bare
`thought` part is treated as valid by `is_valid_content` and is therefore
kept in the curated history, although it is empty of non-thought parts. -/
theorem curated_history_keeps_thought_only_model_turn :
    extract_curated_history 3 [⟨"user", [sampleTextPart]⟩, ⟨"model", [sampleThoughtPart]⟩]
        = some [⟨"user", [sampleTextPart]⟩, ⟨"model", [sampleThoughtPart]⟩]
      ∧ (Content.mk "model" [sampleThoughtPart]).parts.all Part.thoughtTruthy = true
      ∧ (Content.mk "model" [sampleThoughtPart]).parts ≠ [] := by
  refine ⟨by decide, by decide, by decide⟩

/-- Claim C3 (code bug): on any history whose current turn has role
`function`, the curation loop never advances its index — `collectModelRun`
returns an empty run and the same suffix — so `extract_curated_history`
exhausts every fuel bound: the Python loop does not terminate.  Histories
with `function`-role turns do arise: `conversation_graph.execute_tools_node`
appends them and `call_model_node` then curates the history. -/
theorem extract_curated_history_diverges_on_function_role :
    ∀ fuel : Nat,
      extract_curated_history fuel [⟨"function", [sampleFunctionResponsePart]⟩] = none := by
  have key : ∀ fuel acc,
      extractGo fuel [⟨"function", [sampleFunctionResponsePart]⟩] acc = none := by
    intro fuel
    induction fuel with
    | zero => intro acc; rfl
    | succ fuel ih =>
      intro acc
      have : extractGo (fuel + 1) [⟨"function", [sampleFunctionResponsePart]⟩] acc
          = extractGo fuel [⟨"function", [sampleFunctionResponsePart]⟩] (acc ++ []) := by
        rfl
      rw [this, List.append_nil]
      exact ih acc
  intro fuel
  unfold extract_curated_history
  rw [if_neg (by decide)]
  exact key fuel []

/-! ## Compression engine (`core/graphs/conversation_graph.py`, lines 86-157)

`compress_history_node` is embedded as a function of its collaborators:
`count_tokens` models `generator.count_tokens` (reading `totalTokens`),
`limit` models `token_limit(model)` (`0` models a falsy limit), and
`generate_summary` models `client.generate_content` composed with
`client._get_response_text` (`.error` = the call raised, `.ok none` = no text
in the response).  The float comparison `original_token_count < 0.95 * limit`
is embedded as the exact rational comparison `original * 20 < limit * 19`.
The whole node body runs inside `try/except Exception: return state`, so a
raising collaborator leaves the state unchanged. -/

/-- Event payload emitted on the `chat_compressed` channel (lines 143-150).
The source emits the literal string `"unknown"` as the new token count. -/
structure ChatCompressedEvent where
  original_token_count : Nat
  new_token_count : String
deriving DecidableEq, Repr

/-- A part `{"text": s}`. -/
def mkTextPart (s : String) : Part := { text := some s }

/-- The `{"role": "user", "parts": [{"text": compression_prompt}]}` turn the
node appends before summarizing (lines 118-120). -/
def compressionRequestTurn (prompt : String) : Content :=
  ⟨"user", [mkTextPart prompt]⟩

/-- Embeds `conversation_graph.compress_history_node` (lines 86-157),
returning the resulting history together with the list of emitted
`chat_compressed` events. -/
def compress_history_node
    (count_tokens : List Content → Except String Nat)
    (limit : Nat)
    (generate_summary : List Content → Except String (Option String))
    (compression_prompt : String)
    (history : List Content) : List Content × List ChatCompressedEvent :=
  if history.isEmpty then (history, [])
  else
    match count_tokens history with
    | .error _ => (history, [])
    | .ok original_token_count =>
      if limit = 0 ∨ original_token_count * 20 < limit * 19 then (history, [])
      else
        match generate_summary (history ++ [compressionRequestTurn compression_prompt]) with
        | .error _ => (history, [])
        | .ok none => (history, [])
        | .ok (some summary_text) =>
          if summary_text = "" then (history, [])
          else
            ([⟨"user", [mkTextPart summary_text]⟩,
              ⟨"model", [mkTextPart "Got it. Thanks for the summary!"]⟩],
             [⟨original_token_count, "unknown"⟩])

/-- Claim C7 (confirmed): compression leaves the history unchanged when the
token count is below 95 percent of the model limit, when the token count or
the summarization call raises, or when the summarization call yields no text
or an empty summary.  (The node catches every exception, so nothing
propagates to the caller; raising collaborators are the `.error` cases.) -/
theorem compression_noop_cases
    (count_tokens : List Content → Except String Nat) (limit : Nat)
    (generate_summary : List Content → Except String (Option String))
    (prompt : String) (history : List Content)
    (hcase :
      (∃ e, count_tokens history = .error e) ∨
      (∃ n, count_tokens history = .ok n ∧ n * 20 < limit * 19) ∨
      (∃ e, generate_summary (history ++ [compressionRequestTurn prompt]) = .error e) ∨
      generate_summary (history ++ [compressionRequestTurn prompt]) = .ok none ∨
      generate_summary (history ++ [compressionRequestTurn prompt]) = .ok (some "")) :
    (compress_history_node count_tokens limit generate_summary prompt history).1 = history := by
  unfold compress_history_node
  split
  · rfl
  · split
    · rfl
    · next n hct =>
      split
      · rfl
      · next hskip =>
        split
        · rfl
        · rfl
        · next s hsum =>
          split
          · rfl
          · next hs =>
            exfalso
            rcases hcase with ⟨e, h⟩ | ⟨n', h, hlt⟩ | ⟨e, h⟩ | h | h
            · simp [hct] at h
            · rw [hct] at h
              injection h with h2
              subst h2
              exact hskip (Or.inr hlt)
            · simp [hsum] at h
            · simp [hsum] at h
            · rw [hsum] at h
              injection h with h2
              injection h2 with h3
              exact hs h3

/-- Witness for `compression_noop_cases`: the skip branch at 50 tokens
against a limit of 100. -/
theorem compression_noop_cases_witness :
    (compress_history_node (fun _ => .ok 50) 100 (fun _ => .ok (some "S")) "P"
        [⟨"user", [mkTextPart "hi"]⟩]).1 = [⟨"user", [mkTextPart "hi"]⟩] :=
  compression_noop_cases (fun _ => .ok 50) 100 (fun _ => .ok (some "S")) "P"
    [⟨"user", [mkTextPart "hi"]⟩] (Or.inr (Or.inl ⟨50, rfl, by decide⟩))

/-- Claim C4 (corrected): when compression runs and summarization returns a
non-empty summary `S`, the history is replaced by the two turns
`[{user: S}, {model: "Got it. Thanks for the summary!"}]` with no environment
preamble, tokens are not recounted, and the `chat_compressed` event carries
`original_token_count` together with the placeholder string `"unknown"` as
the new token count. -/
theorem compression_replacement_amended
    (count_tokens : List Content → Except String Nat) (limit : Nat)
    (generate_summary : List Content → Except String (Option String))
    (prompt : String) (history : List Content) (n : Nat) (s : String)
    (hne : history ≠ [])
    (hct : count_tokens history = .ok n)
    (hrun : ¬(limit = 0 ∨ n * 20 < limit * 19))
    (hsum : generate_summary (history ++ [compressionRequestTurn prompt]) = .ok (some s))
    (hs : s ≠ "") :
    compress_history_node count_tokens limit generate_summary prompt history
      = ([⟨"user", [mkTextPart s]⟩,
          ⟨"model", [mkTextPart "Got it. Thanks for the summary!"]⟩],
         [⟨n, "unknown"⟩]) := by
  unfold compress_history_node
  rw [if_neg (by simpa [List.isEmpty_iff] using hne)]
  split
  · next e h => simp [hct] at h
  · next m h =>
    rw [hct] at h
    injection h with h2
    subst h2
    rw [if_neg hrun]
    split
    · next e h2 => simp [hsum] at h2
    · next h2 => simp [hsum] at h2
    · next t h2 =>
      rw [hsum] at h2
      injection h2 with h3
      injection h3 with h4
      subst h4
      rw [if_neg hs]

/-- Witness for `compression_replacement_amended` at a concrete run. -/
theorem compression_replacement_amended_witness :
    compress_history_node (fun _ => .ok 100) 100 (fun _ => .ok (some "S")) "P"
        [⟨"user", [mkTextPart "hi"]⟩]
      = ([⟨"user", [mkTextPart "S"]⟩,
          ⟨"model", [mkTextPart "Got it. Thanks for the summary!"]⟩],
         [⟨100, "unknown"⟩]) :=
  compression_replacement_amended (fun _ => .ok 100) 100 (fun _ => .ok (some "S")) "P"
    [⟨"user", [mkTextPart "hi"]⟩] 100 "S" (by decide) rfl (by decide) rfl (by decide)

/-- Claim C4 counterexample: on a concrete compression run the model
acknowledgement turn reads `"Got it. Thanks for the summary!"`, not
`"Acknowledged."`, no environment preamble is prepended (the new history has
exactly the two turns), and the emitted event carries the string `"unknown"`
instead of a recounted token number strictly below the original. -/
theorem compression_replacement_cex :
    (compress_history_node (fun _ => .ok 100) 100 (fun _ => .ok (some "S")) "P"
        [⟨"user", [mkTextPart "hi"]⟩]).1
      = [⟨"user", [mkTextPart "S"]⟩,
         ⟨"model", [mkTextPart "Got it. Thanks for the summary!"]⟩]
    ∧ (mkTextPart "Got it. Thanks for the summary!").text ≠ some "Acknowledged."
    ∧ (compress_history_node (fun _ => .ok 100) 100 (fun _ => .ok (some "S")) "P"
        [⟨"user", [mkTextPart "hi"]⟩]).2
      = [⟨100, "unknown"⟩] := by
  refine ⟨by decide, by decide, by decide⟩

/-! ## Tool scheduler (`core/graphs/tool_execution_graph.py`)

A tool instance is modelled by its name and its three behaviours as pure
`Except`-valued functions (`.error` = the Python call raised); tool
arguments stay abstract as a string encoding of the args dict.  The registry
(`tools/base/registry.py`, `ToolRegistry._tools`) is modelled as a list of
tools looked up by name.  Durations, start times and live-output callbacks
are not modelled. -/

/-- Embeds `api.events.ToolCallRequestInfo` as read by the scheduler. -/
structure ToolCallRequestInfo where
  call_id : String
  name : String
  args : String
  is_client_initiated : Bool
deriving DecidableEq, Repr

/-- Normalized result content of a tool execution
(`ToolResult.llm_content` may be a string, a list of parts, a single part
dict, or anything else). -/
inductive LlmContent where
  | str (s : String)
  | list (parts : List Part)
  | dict (part : Part)
  | other
deriving DecidableEq, Repr

/-- Embeds `tools/base/tool_base.ToolResult`. -/
structure ToolResultM where
  llm_content : LlmContent
  return_display : String
deriving Repr

/-- Embeds a tool instance (`tools/base/tool_base.BaseTool`): behaviours are
pure functions of the args encoding. `validate_tool_params` returns an error
string on failure (`Tool` protocol, lines 54 and 101-104);
`should_confirm_execute` returns confirmation details or a falsy value
(modelled `none`); `execute` returns a `ToolResult`. -/
structure ToolModel where
  name : String
  validate_tool_params : String → Option String
  should_confirm_execute : String → Except String (Option String)
  execute : String → Except String ToolResultM

/-- Embeds `ToolRegistry.get_tool` (registry.py line 142): dict lookup by
tool name. -/
def get_tool (registry : List ToolModel) (name : String) : Option ToolModel :=
  registry.find? fun t => t.name == name

/-- Response parts attached to a `ToolCallResponseInfo`: the error path
passes a single `functionResponse` part dict, the success path a list. -/
inductive ResponseParts where
  | single (p : Part)
  | list (ps : List Part)
deriving DecidableEq, Repr

/-- Embeds `api.events.ToolCallResponseInfo`. -/
structure ToolCallResponseInfo where
  callId : String
  responseParts : ResponseParts
  error : Option String
  resultDisplay : Option String
deriving DecidableEq, Repr

/-- Embeds `tool_execution_graph.create_error_response` (lines 54-67). -/
def create_error_response (request : ToolCallRequestInfo) (error : String) :
    ToolCallResponseInfo :=
  { callId := request.call_id
    responseParts := .single
      { function_response := some ⟨request.call_id, request.name, none, some error⟩ }
    error := some error
    resultDisplay := some error }

/-- Embeds the per-call lifecycle records of `core/nodes/tool_nodes.py`:
one constructor per status class. -/
inductive ToolCall where
  | validating (request : ToolCallRequestInfo) (tool : ToolModel)
  | scheduled (request : ToolCallRequestInfo) (tool : ToolModel)
  | executing (request : ToolCallRequestInfo) (tool : ToolModel)
  | awaiting_approval (request : ToolCallRequestInfo) (tool : ToolModel)
      (confirmation_details : String)
  | success (request : ToolCallRequestInfo) (tool : ToolModel)
      (response : ToolCallResponseInfo)
  | errored (request : ToolCallRequestInfo) (response : ToolCallResponseInfo)
  | cancelled (request : ToolCallRequestInfo) (tool : ToolModel)
      (response : ToolCallResponseInfo)

/-- The request carried by a lifecycle record. -/
def ToolCall.request : ToolCall → ToolCallRequestInfo
  | .validating r _ => r
  | .scheduled r _ => r
  | .executing r _ => r
  | .awaiting_approval r _ _ => r
  | .success r _ _ => r
  | .errored r _ => r
  | .cancelled r _ _ => r

/-- Terminal statuses (`success`, `error`, `cancelled`). -/
def ToolCall.isTerminal : ToolCall → Bool
  | .success _ _ _ => true
  | .errored _ _ => true
  | .cancelled _ _ _ => true
  | _ => false

/-- Status `awaiting_approval` (`WaitingToolCall`). -/
def ToolCall.isWaiting : ToolCall → Bool
  | .awaiting_approval _ _ _ => true
  | _ => false

/-- Status `scheduled` (`ScheduledToolCall`). -/
def ToolCall.isScheduled : ToolCall → Bool
  | .scheduled _ _ => true
  | _ => false

/-- Whether the record is in the terminal `error` state. -/
def ToolCall.isErrored : ToolCall → Bool
  | .errored _ _ => true
  | _ => false

/-- Embeds `tool_nodes.ToolExecutionState`. -/
structure ToolExecutionState where
  incoming_requests : List ToolCallRequestInfo
  tool_calls : List ToolCall

/-- Embeds the body of the `for req_info in state.incoming_requests` loop of
`schedule_tools_node` (lines 162-210): registry miss yields a terminal
`error` record with a not-found message; otherwise, in YOLO mode the call is
scheduled directly, and otherwise `should_confirm_execute` decides between
`awaiting_approval` (truthy details), `scheduled` (falsy result), or a
terminal `error` record when it raises.  The source never calls
`validate_tool_params`. -/
def schedule_tool_call (registry : List ToolModel) (yolo : Bool)
    (req_info : ToolCallRequestInfo) : ToolCall :=
  match get_tool registry req_info.name with
  | none =>
    .errored req_info
      (create_error_response req_info
        ("Tool \x27" ++ req_info.name ++ "\x27 not found in registry."))
  | some tool_instance =>
    if yolo then .scheduled req_info tool_instance
    else
      match tool_instance.should_confirm_execute req_info.args with
      | .error e => .errored req_info (create_error_response req_info e)
      | .ok (some confirmation_details) =>
        .awaiting_approval req_info tool_instance confirmation_details
      | .ok none => .scheduled req_info tool_instance

/-- Embeds `tool_execution_graph.schedule_tools_node` (lines 154-212): the
new records are appended to the existing `tool_calls`;
`incoming_requests` is left untouched. -/
def schedule_tools_node (registry : List ToolModel) (yolo : Bool)
    (state : ToolExecutionState) : ToolExecutionState :=
  ⟨state.incoming_requests,
   state.tool_calls ++ state.incoming_requests.map (schedule_tool_call registry yolo)⟩

/-- Embeds `tool_execution_graph.should_wait_for_approval` (lines 269-278). -/
def should_wait_for_approval (state : ToolExecutionState) : Bool :=
  state.tool_calls.any ToolCall.isWaiting

/-- Embeds `tool_execution_graph.wait_for_approval_node` (lines 215-236):
one confirmation event `(request, details)` per waiting call; the state is
unchanged. -/
def wait_for_approval_node (state : ToolExecutionState) :
    List (ToolCallRequestInfo × String) :=
  state.tool_calls.filterMap fun c =>
    match c with
    | .awaiting_approval req _ cd => some (req, cd)
    | _ => none

/-- Embeds `tool_execution_graph.convert_to_function_response`
(lines 70-97). -/
def convert_to_function_response (tool_name call_id : String)
    (llm_content : LlmContent) : List Part :=
  let create_part := fun (output : String) =>
    ({ function_response := some ⟨call_id, tool_name, some output, none⟩ } : Part)
  match llm_content with
  | .str s => [create_part s]
  | .list parts => parts
  | .dict part => [part]
  | .other => [create_part "Tool execution succeeded."]

/-- Embeds `tool_execution_graph.execute_single_tool` (lines 100-151):
a successful execution yields a `success` record whose response parts come
from `convert_to_function_response`; a raising execution yields a terminal
`error` record.  Caveat: the source reads `call.request.request.call_id`
(lines 127 and 131) although `ScheduledToolCall.request` is already the
`ToolCallRequestInfo`, so in the source that attribute access raises and a
successful execution is downgraded to an errored call; this embedding
models the evident intent (`call.request.call_id`), and no theorem below
depends on this branch. -/
def execute_single_tool (req : ToolCallRequestInfo) (tool : ToolModel) : ToolCall :=
  match tool.execute req.args with
  | .ok tool_result =>
    .success req tool
      { callId := req.call_id
        responseParts :=
          .list (convert_to_function_response req.name req.call_id tool_result.llm_content)
        error := none
        resultDisplay := some tool_result.return_display }
  | .error e => .errored req (create_error_response req e)

/-- Embeds `tool_execution_graph.execute_tools_node` (lines 239-266): when
no call is `scheduled` the state passes through unchanged; otherwise every
scheduled call is executed and each entry of `tool_calls` whose `call_id`
matches a completed call is replaced by it.  Caveat: the same
`call.request.request.call_id` access appears in the source's
`completed_map` build and replacement lookup (lines 257 and 262) and raises
whenever completed calls exist; the embedding models the evident intent.
Every theorem below only exercises the early empty-scheduled return
(line 250-252), which the source reaches before those accesses. -/
def execute_tools_node (state : ToolExecutionState) : ToolExecutionState :=
  let scheduled_calls := state.tool_calls.filter ToolCall.isScheduled
  if scheduled_calls.isEmpty then state
  else
    let completed_calls := scheduled_calls.filterMap fun c =>
      match c with
      | .scheduled req tool => some (execute_single_tool req tool)
      | _ => none
    let updated := state.tool_calls.map fun c =>
      match completed_calls.find? (fun cc => cc.request.call_id == c.request.call_id) with
      | some cc => cc
      | none => c
    ⟨state.incoming_requests, updated⟩

/-- One pass of the compiled tool-execution graph
(`create_tool_execution_graph`, lines 281-318): `schedule_tools`, then the
conditional edge to `wait_for_approval` (which only emits confirmation
events), then `execute_tools`.  Returns the final state and the emitted
confirmation events. -/
def tool_execution_graph_pass (registry : List ToolModel) (yolo : Bool)
    (state : ToolExecutionState) :
    ToolExecutionState × List (ToolCallRequestInfo × String) :=
  let st1 := schedule_tools_node registry yolo state
  let events := if should_wait_for_approval st1 then wait_for_approval_node st1 else []
  (execute_tools_node st1, events)

/-- Claim C1 (corrected): characterization of the validate phase.  A
registry miss produces the terminal `error` record whose response says the
tool was not found; for a registered tool the scheduler never calls
`validate_tool_params` — instead, in YOLO mode the call is scheduled, and
otherwise `should_confirm_execute` decides: a raise produces the terminal
`error` record, truthy confirmation details produce `awaiting_approval`, and
a falsy result produces `scheduled`. -/
theorem schedule_tools_validate_phase (registry : List ToolModel) (yolo : Bool)
    (req : ToolCallRequestInfo) (t : ToolModel) (e cd : String) :
    (get_tool registry req.name = none →
      schedule_tool_call registry yolo req
        = .errored req
            (create_error_response req
              ("Tool \x27" ++ req.name ++ "\x27 not found in registry.")))
    ∧ (get_tool registry req.name = some t → yolo = true →
        schedule_tool_call registry yolo req = .scheduled req t)
    ∧ (get_tool registry req.name = some t → yolo = false →
        t.should_confirm_execute req.args = .error e →
        schedule_tool_call registry yolo req
          = .errored req (create_error_response req e))
    ∧ (get_tool registry req.name = some t → yolo = false →
        t.should_confirm_execute req.args = .ok (some cd) →
        schedule_tool_call registry yolo req = .awaiting_approval req t cd)
    ∧ (get_tool registry req.name = some t → yolo = false →
        t.should_confirm_execute req.args = .ok none →
        schedule_tool_call registry yolo req = .scheduled req t) := by
  refine ⟨?_, ?_, ?_, ?_, ?_⟩
  · intro h
    simp [schedule_tool_call, h]
  · intro h hy
    simp [schedule_tool_call, h, hy]
  · intro h hy hc
    simp [schedule_tool_call, h, hy, hc]
  · intro h hy hc
    simp [schedule_tool_call, h, hy, hc]
  · intro h hy hc
    simp [schedule_tool_call, h, hy, hc]

/-- A concrete tool whose parameter validation always fails but whose
confirmation and execution behaviours succeed. -/
def cexValidateTool : ToolModel :=
  { name := "t"
    validate_tool_params := fun _ => some "invalid params"
    should_confirm_execute := fun _ => .ok none
    execute := fun _ => .ok ⟨.str "done", "done"⟩ }

/-- Witness for `schedule_tools_validate_phase`, exercising the
registry-miss conjunct and the falsy-confirmation conjunct at concrete
inputs. -/
theorem schedule_tools_validate_phase_witness :
    (schedule_tool_call [] false ⟨"c1", "missing", "a", false⟩
        = .errored ⟨"c1", "missing", "a", false⟩
            (create_error_response ⟨"c1", "missing", "a", false⟩
              ("Tool \x27" ++ "missing" ++ "\x27 not found in registry.")))
    ∧ (schedule_tool_call [cexValidateTool] false ⟨"c2", "t", "a", false⟩
        = .scheduled ⟨"c2", "t", "a", false⟩ cexValidateTool) :=
  ⟨(schedule_tools_validate_phase [] false ⟨"c1", "missing", "a", false⟩
      cexValidateTool "e" "cd").1 rfl,
   (schedule_tools_validate_phase [cexValidateTool] false ⟨"c2", "t", "a", false⟩
      cexValidateTool "e" "cd").2.2.2.2 rfl rfl rfl⟩

/-- Claim C1 counterexample: a request whose tool is registered and whose
`validate_tool_params` rejects the args is nevertheless scheduled — the
validate phase never invokes `validate_tool_params` and no transition to the
terminal `error` state happens on validation failure. -/
theorem schedule_ignores_validate_params_cex :
    cexValidateTool.validate_tool_params "a" = some "invalid params"
    ∧ schedule_tool_call [cexValidateTool] false ⟨"c1", "t", "a", false⟩
        = .scheduled ⟨"c1", "t", "a", false⟩ cexValidateTool
    ∧ (schedule_tool_call [cexValidateTool] false ⟨"c1", "t", "a", false⟩).isErrored
        = false :=
  ⟨rfl, rfl, rfl⟩

/-- Claim C8 counterexample: running the graph on one unknown-tool request
yields a final state whose single call is terminal but whose
`incoming_requests` is never cleared; re-invoking the graph on that very
state re-schedules the request and appends a duplicate record, so the
re-invocation is not a no-op. -/
theorem scheduler_reinvoke_not_noop_cex :
    ((tool_execution_graph_pass [] false ⟨[⟨"c1", "missing", "a", false⟩], []⟩).1.tool_calls.length
        = 1)
    ∧ ((tool_execution_graph_pass [] false
          ⟨[⟨"c1", "missing", "a", false⟩], []⟩).1.tool_calls.all ToolCall.isTerminal = true)
    ∧ ((tool_execution_graph_pass [] false
          ⟨[⟨"c1", "missing", "a", false⟩], []⟩).1.incoming_requests
        = [⟨"c1", "missing", "a", false⟩])
    ∧ ((tool_execution_graph_pass [] false
          (tool_execution_graph_pass [] false
            ⟨[⟨"c1", "missing", "a", false⟩], []⟩).1).1.tool_calls.length = 2) :=
  ⟨rfl, rfl, rfl, rfl⟩

/-- Claim C8 (corrected): the graph pass is a no-op exactly on states whose
`incoming_requests` list is empty and whose calls are all terminal: the
state comes back unchanged and no confirmation event is emitted.  (With a
non-empty `incoming_requests`, as the graph itself leaves behind, the
requests are re-scheduled and duplicate records appended — see the
counterexample.) -/
theorem scheduler_reinvoke_noop_amended (registry : List ToolModel) (yolo : Bool)
    (state : ToolExecutionState)
    (hinc : state.incoming_requests = [])
    (hterm : state.tool_calls.all ToolCall.isTerminal = true) :
    tool_execution_graph_pass registry yolo state = (state, []) := by
  obtain ⟨inc, calls⟩ := state
  have hinc2 : inc = [] := hinc
  subst hinc2
  have hterm2 : calls.all ToolCall.isTerminal = true := hterm
  have hnowait : ∀ c ∈ calls, ToolCall.isWaiting c = false := by
    intro c hc
    have := List.all_eq_true.mp hterm2 c hc
    cases c <;> simp_all [ToolCall.isTerminal, ToolCall.isWaiting]
  have hnosched : ∀ c ∈ calls, ToolCall.isScheduled c = false := by
    intro c hc
    have := List.all_eq_true.mp hterm2 c hc
    cases c <;> simp_all [ToolCall.isTerminal, ToolCall.isScheduled]
  have hsched : schedule_tools_node registry yolo ⟨[], calls⟩ = ⟨[], calls⟩ := by
    unfold schedule_tools_node
    simp
  have hwait : should_wait_for_approval ⟨[], calls⟩ = false := by
    unfold should_wait_for_approval
    rw [List.any_eq_false]
    intro c hc
    simp [hnowait c hc]
  have hexec : execute_tools_node ⟨[], calls⟩ = ⟨[], calls⟩ := by
    unfold execute_tools_node
    have hfil : calls.filter ToolCall.isScheduled = [] :=
      List.filter_eq_nil_iff.mpr (by intro c hc; simp [hnosched c hc])
    simp only [hfil]
    rfl
  unfold tool_execution_graph_pass
  simp only [hsched, hwait, hexec, Bool.false_eq_true, if_false]

/-- Witness for `scheduler_reinvoke_noop_amended` at a concrete terminal
state with an empty `incoming_requests`. -/
theorem scheduler_reinvoke_noop_amended_witness :
    tool_execution_graph_pass [] false
        ⟨[], [.errored ⟨"c1", "missing", "a", false⟩
                (create_error_response ⟨"c1", "missing", "a", false⟩ "boom")]⟩
      = (⟨[], [.errored ⟨"c1", "missing", "a", false⟩
                (create_error_response ⟨"c1", "missing", "a", false⟩ "boom")]⟩, []) :=
  scheduler_reinvoke_noop_amended [] false
    ⟨[], [.errored ⟨"c1", "missing", "a", false⟩
            (create_error_response ⟨"c1", "missing", "a", false⟩ "boom")]⟩ rfl rfl

/-! ## Next-speaker oracle (`utils/next_speaker.py`) -/

/-- Embeds `core/types.NextSpeakerResponse` as constructed by
`check_next_speaker`. -/
structure NextSpeakerResponse where
  reasoning : String
  next_speaker : String
deriving DecidableEq, Repr

/-- Outcome of the structured `client.generate_json` call: `err` models a
raised exception (network error), `ok none` a call that returned a falsy
result, and `ok (some dict)` a parsed JSON object of string entries. -/
inductive JsonCallOutcome where
  | err
  | ok (result : Option (List (String × String)))
deriving DecidableEq, Repr

/-- The last turn of a non-empty history (`history[-1]` in the source); the
default is irrelevant because every use is guarded by a non-emptiness
check. -/
def lastTurn (history : List Content) : Content :=
  history.getLast?.getD ⟨"", []⟩

/-- Embeds `next_speaker.check_next_speaker` (lines 63-133) as a function of
the two histories and the outcome of the structured model call.  The two
deterministic guards on empty histories return `None`; pre-check 1 fires on
a trailing all-function-response `user` turn, pre-check 2 on a trailing
`model` turn with no parts; a non-`model` last curated turn returns `None`;
otherwise the validated JSON result decides, with `None` on a raise, a falsy
result, a missing or invalid `next_speaker` entry. -/
def check_next_speaker (curated_history comprehensive_history : List Content)
    (llm : JsonCallOutcome) : Option NextSpeakerResponse :=
  if curated_history = [] then none
  else if comprehensive_history = [] then none
  else
    let last_comprehensive_message := lastTurn comprehensive_history
    if is_function_response last_comprehensive_message then
      some ⟨"Last message was a function response, so the model should speak next.",
            "model"⟩
    else if last_comprehensive_message.role = "model"
        ∧ last_comprehensive_message.parts = [] then
      some ⟨"Last message was an empty model turn, so the model should speak next.",
            "model"⟩
    else
      let last_curated_message := lastTurn curated_history
      if last_curated_message.role ≠ "model" then none
      else
        match llm with
        | .err => none
        | .ok none => none
        | .ok (some result) =>
          if result = [] then none
          else
            match result.lookup "next_speaker" with
            | none => none
            | some v =>
              if v = "user" ∨ v = "model" then
                some ⟨(result.lookup "reasoning").getD "", v⟩
              else none

/-- Claim C5 (corrected): the oracle's deterministic pre-rules hold only
under the additional precondition that both histories are non-empty — the
function returns `none` up front otherwise, which falsifies the
unconditional claim (see the counterexample).  Given non-empty histories: a
last comprehensive `user` turn of pure function responses yields next
speaker `model`; a last comprehensive `model` turn with no parts yields
`model`; otherwise a non-`model` last curated turn yields `none` (the
unknown value); and when the structured call raises or returns a falsy
result the oracle also returns `none`, the value its caller treats as
`user`/end. -/
theorem next_speaker_pre_rules (curated comprehensive : List Content)
    (llm : JsonCallOutcome)
    (hcur : curated ≠ []) (hcomp : comprehensive ≠ []) :
    (is_function_response (lastTurn comprehensive) = true →
      (check_next_speaker curated comprehensive llm).map (fun r => r.next_speaker)
        = some "model")
    ∧ ((lastTurn comprehensive).role = "model" →
        (lastTurn comprehensive).parts = [] →
        (check_next_speaker curated comprehensive llm).map (fun r => r.next_speaker)
          = some "model")
    ∧ (is_function_response (lastTurn comprehensive) = false →
        ¬((lastTurn comprehensive).role = "model"
            ∧ (lastTurn comprehensive).parts = []) →
        (lastTurn curated).role ≠ "model" →
        check_next_speaker curated comprehensive llm = none)
    ∧ (is_function_response (lastTurn comprehensive) = false →
        ¬((lastTurn comprehensive).role = "model"
            ∧ (lastTurn comprehensive).parts = []) →
        (llm = .err ∨ llm = .ok none) →
        check_next_speaker curated comprehensive llm = none) := by
  refine ⟨?_, ?_, ?_, ?_⟩
  · intro hfr
    unfold check_next_speaker
    rw [if_neg hcur, if_neg hcomp, if_pos (by rw [hfr])]
    rfl
  · intro hrole hparts
    have hfr : ¬ is_function_response (lastTurn comprehensive) = true := by
      simp [is_function_response, hrole]
    unfold check_next_speaker
    rw [if_neg hcur, if_neg hcomp, if_neg hfr, if_pos ⟨hrole, hparts⟩]
    rfl
  · intro hfr hnot hcurrole
    unfold check_next_speaker
    rw [if_neg hcur, if_neg hcomp, if_neg (by rw [hfr]; exact Bool.false_ne_true),
      if_neg hnot, if_pos hcurrole]
  · intro hfr hnot hllm
    unfold check_next_speaker
    rw [if_neg hcur, if_neg hcomp, if_neg (by rw [hfr]; exact Bool.false_ne_true),
      if_neg hnot]
    by_cases hcr : (lastTurn curated).role ≠ "model"
    · rw [if_pos hcr]
    · rw [if_neg hcr]
      rcases hllm with h | h <;> rw [h]

/-- Witness for `next_speaker_pre_rules`: each pre-rule exercised at a
concrete pair of histories. -/
theorem next_speaker_pre_rules_witness :
    ((check_next_speaker [⟨"user", [sampleFunctionResponsePart]⟩]
        [⟨"user", [sampleFunctionResponsePart]⟩] .err).map (fun r => r.next_speaker)
      = some "model")
    ∧ ((check_next_speaker [⟨"model", []⟩] [⟨"model", []⟩] .err).map
          (fun r => r.next_speaker) = some "model")
    ∧ (check_next_speaker [⟨"user", [sampleTextPart]⟩]
        [⟨"user", [sampleTextPart]⟩] (.ok (some [("next_speaker", "model")])) = none)
    ∧ (check_next_speaker [⟨"model", [sampleTextPart]⟩]
        [⟨"model", [sampleTextPart]⟩] .err = none) :=
  ⟨(next_speaker_pre_rules [⟨"user", [sampleFunctionResponsePart]⟩]
      [⟨"user", [sampleFunctionResponsePart]⟩] .err (by decide) (by decide)).1
      (by decide),
   (next_speaker_pre_rules [⟨"model", []⟩] [⟨"model", []⟩] .err (by decide)
      (by decide)).2.1 (by decide) (by decide),
   (next_speaker_pre_rules [⟨"user", [sampleTextPart]⟩] [⟨"user", [sampleTextPart]⟩]
      (.ok (some [("next_speaker", "model")])) (by decide) (by decide)).2.2.1
      (by decide) (by decide) (by decide),
   (next_speaker_pre_rules [⟨"model", [sampleTextPart]⟩] [⟨"model", [sampleTextPart]⟩]
      .err (by decide) (by decide)).2.2.2 (by decide) (by decide) (Or.inl rfl)⟩

/-- Claim C5 counterexample: for the comprehensive history
`[user, model-with-no-parts]` — which `call_model_node` itself produces by
appending an empty model turn, and whose curated history is empty because
curation drops the invalid model run together with its user turn — the
antecedent of pre-rule 2 holds (the last comprehensive turn is a `model`
turn with no parts), yet `check_next_speaker` returns `none` at the
empty-curated guard instead of next speaker `model`. -/
theorem next_speaker_empty_curated_cex :
    (lastTurn [⟨"user", [sampleTextPart]⟩, ⟨"model", []⟩]).role = "model"
    ∧ (lastTurn [⟨"user", [sampleTextPart]⟩, ⟨"model", []⟩]).parts = []
    ∧ extract_curated_history 3 [⟨"user", [sampleTextPart]⟩, ⟨"model", []⟩] = some []
    ∧ check_next_speaker [] [⟨"user", [sampleTextPart]⟩, ⟨"model", []⟩] .err = none := by
  refine ⟨by decide, by decide, by decide, by decide⟩

/-! ## Retry policy (`utils/retry.py`)

The decorated loop (`retry_with_backoff`, lines 36-161) is embedded as a
function of the retry configuration, the `should_retry` predicate, the
optional `on_persistent_429` hook and `auth_type`, consuming one attempt
outcome per loop iteration from a finite oracle list.  Sleeps and jitter are
not modelled (they do not affect the state tracked here); the `Retry-After`
header is modelled as the parsed seconds value carried by the outcome. -/

/-- A raised error after `to_friendly_error`: its string form and whether it
is one of the `BadRequestError`/`UnauthorizedError`/`ForbiddenError` classes
that `default_should_retry` never retries. -/
structure ErrorInfo where
  msg : String
  is_user_or_auth_error : Bool
deriving DecidableEq, Repr

/-- Whether the first character list is a prefix of the second. -/
def isPrefixChars : List Char → List Char → Bool
  | [], _ => true
  | _ :: _, [] => false
  | a :: as, b :: bs => a == b && isPrefixChars as bs

/-- Whether the first character list occurs contiguously in the second. -/
def containsChars (pat : List Char) : List Char → Bool
  | [] => isPrefixChars pat []
  | c :: rest => isPrefixChars pat (c :: rest) || containsChars pat rest

/-- Python `"pat" in str(error)` substring test. -/
def strContains (s pat : String) : Bool :=
  containsChars pat.toList s.toList

/-- Embeds `retry.default_should_retry` (lines 23-33). -/
def default_should_retry (error : ErrorInfo) : Bool :=
  if error.is_user_or_auth_error then false
  else if strContains error.msg "429" || strContains error.msg "50" then true
  else false

/-- Outcome of one attempt of the wrapped function: a success value or a
raised error together with the parsed `Retry-After` seconds (0 = absent). -/
inductive AttemptOutcome (α : Type) where
  | ok (v : α)
  | err (e : ErrorInfo) (retry_after_seconds : Nat)
deriving DecidableEq, Repr

/-- The mutable loop state of the wrapper (lines 52-56). -/
structure RetryState where
  attempt : Nat
  current_delay : Nat
  consecutive_429_count : Nat
deriving DecidableEq, Repr

/-- Static parameters of the decorator (lines 36-43). -/
structure RetryConfig where
  max_attempts : Nat := 5
  initial_delay_ms : Nat := 5000
  max_delay_ms : Nat := 30000
deriving DecidableEq, Repr

/-- Result of the loop: a returned value, a re-raised last error, or the
oracle ran out of outcomes while the loop wanted another attempt. -/
inductive RetryResult (α : Type) where
  | success (v : α)
  | failure (last_error : Option ErrorInfo)
  | inputExhausted (st : RetryState) (last_error : Option ErrorInfo)
deriving DecidableEq, Repr

/-- Embeds the `while attempt < max_attempts` loop of
`retry.retry_with_backoff.wrapper` (lines 58-157).  Returns the loop result
together with the list of `auth_type` values the `on_persistent_429` hook
was invoked with, in order.  On an error outcome the consecutive-429 counter
is updated (lines 66-69); when it has reached 2 and both hook and truthy
`auth_type` are present the hook runs (lines 71-89) and a non-empty returned
model id resets attempt counter, consecutive-429 counter and delay before
continuing; otherwise the loop breaks when attempts are exhausted or the
error is not retryable (lines 91-94), honours a positive `Retry-After` by
resetting the delay (lines 97-133), or doubles the delay up to the maximum
(lines 135-144).  After the loop the last error is re-raised
(lines 146-151). -/
def retry_with_backoff {α : Type} (cfg : RetryConfig)
    (should_retry : ErrorInfo → Bool)
    (on_persistent_429 : Option (String → Except String (Option String)))
    (auth_type : Option String) :
    List (AttemptOutcome α) → RetryState → Option ErrorInfo →
      RetryResult α × List String
  | outcomes, st, last_error =>
    if st.attempt < cfg.max_attempts then
      match outcomes with
      | [] => (.inputExhausted st last_error, [])
      | o :: rest =>
        let attempt := st.attempt + 1
        match o with
        | .ok v => (.success v, [])
        | .err e retry_after =>
          let consec :=
            if strContains e.msg "429" then st.consecutive_429_count + 1 else 0
          let fb : Option String × List String :=
            match on_persistent_429, auth_type with
            | some handler, some auth =>
              if 2 ≤ consec ∧ auth ≠ "" then
                ((match handler auth with
                  | .ok m => m
                  | .error _ => none), [auth])
              else (none, [])
            | _, _ => (none, [])
          let reset_to_fallback :=
            match fb.1 with
            | some m => m != ""
            | none => false
          if reset_to_fallback then
            let r := retry_with_backoff cfg should_retry on_persistent_429 auth_type
              rest ⟨0, cfg.initial_delay_ms, 0⟩ (some e)
            (r.1, fb.2 ++ r.2)
          else if cfg.max_attempts ≤ attempt ∨ should_retry e = false then
            (.failure (some e), fb.2)
          else if 0 < retry_after then
            let r := retry_with_backoff cfg should_retry on_persistent_429 auth_type
              rest ⟨attempt, cfg.initial_delay_ms, consec⟩ (some e)
            (r.1, fb.2 ++ r.2)
          else
            let r := retry_with_backoff cfg should_retry on_persistent_429 auth_type
              rest ⟨attempt, min cfg.max_delay_ms (st.current_delay * 2), consec⟩
              (some e)
            (r.1, fb.2 ++ r.2)
    else (.failure last_error, [])

/-- Claim C6 (confirmed): when an attempt fails with a 429 while the
previous attempt had already failed with a 429 (so the consecutive-429
counter reaches 2), and the hook is present with a truthy auth type, the
hook is invoked with that auth type (it heads the invocation trace), and a
non-empty returned model id resets the attempt counter, the consecutive-429
counter and the backoff delay to their initial values before the next
attempt. -/
theorem retry_fallback_resets {α : Type} (cfg : RetryConfig)
    (should_retry : ErrorInfo → Bool)
    (handler : String → Except String (Option String)) (auth : String)
    (rest : List (AttemptOutcome α)) (st : RetryState) (last_error : Option ErrorInfo)
    (e : ErrorInfo) (retry_after : Nat) (m : String)
    (hatt : st.attempt < cfg.max_attempts)
    (h429 : strContains e.msg "429" = true)
    (hprev : 1 ≤ st.consecutive_429_count)
    (hauth : auth ≠ "")
    (hm : handler auth = .ok (some m))
    (hm2 : m ≠ "") :
    retry_with_backoff cfg should_retry (some handler) (some auth)
        (.err e retry_after :: rest) st last_error
      = ((retry_with_backoff cfg should_retry (some handler) (some auth)
            rest ⟨0, cfg.initial_delay_ms, 0⟩ (some e)).1,
         auth :: (retry_with_backoff cfg should_retry (some handler) (some auth)
            rest ⟨0, cfg.initial_delay_ms, 0⟩ (some e)).2) := by
  rw [retry_with_backoff]
  rw [if_pos hatt]
  simp only [h429, if_true, hm]
  rw [if_pos (⟨by omega, hauth⟩ : 2 ≤ st.consecutive_429_count + 1 ∧ auth ≠ "")]
  simp only [bne_iff_ne, ne_eq]
  rw [if_pos (by simpa using hm2)]
  rfl

/-- Witness for `retry_fallback_resets` at a concrete second consecutive
429 with the default configuration. -/
theorem retry_fallback_resets_witness :
    retry_with_backoff (α := Nat) ⟨5, 5000, 30000⟩ default_should_retry
        (some fun _ => .ok (some "model-fast")) (some "oauth")
        [.err ⟨"429 rate limited", false⟩ 0] ⟨1, 10000, 1⟩ none
      = ((retry_with_backoff (α := Nat) ⟨5, 5000, 30000⟩ default_should_retry
            (some fun _ => .ok (some "model-fast")) (some "oauth")
            [] ⟨0, 5000, 0⟩ (some ⟨"429 rate limited", false⟩)).1,
         "oauth" :: (retry_with_backoff (α := Nat) ⟨5, 5000, 30000⟩ default_should_retry
            (some fun _ => .ok (some "model-fast")) (some "oauth")
            [] ⟨0, 5000, 0⟩ (some ⟨"429 rate limited", false⟩)).2) :=
  retry_fallback_resets ⟨5, 5000, 30000⟩ default_should_retry
    (fun _ => .ok (some "model-fast")) "oauth" [] ⟨1, 10000, 1⟩ none
    ⟨"429 rate limited", false⟩ 0 "model-fast"
    (by decide) (by decide) (by decide) (by decide) rfl (by decide)

/-! ## Remote (MCP) tool-name registration (`tools/mcp/mcp_client.py`,
`_discover_with_session`, lines 116-158)

The three name-shaping steps applied to a discovered tool's name before
registration: character sanitization by the regex `[^a-zA-Z0-9_.-] → _`,
collision disambiguation by prefixing `server_name + "__"`, and truncation
of names longer than 63 characters to `name[:28] + "___" + name[-32:]`.
The registry is modelled by the list of already-registered tool names. -/

/-- A character matched by the regex class `[a-zA-Z0-9_.-]`. -/
def isAllowedToolNameChar (c : Char) : Bool :=
  c.isAlphanum || c == '_' || c == '.' || c == '-'

/-- Embeds the `re.search`/`re.sub` step (lines 132-136): if any character
falls outside `[a-zA-Z0-9_.-]`, every such character is replaced by `_`. -/
def sanitized_tool_name (s : String) : String :=
  if s.toList.any (fun c => !isAllowedToolNameChar c) then
    String.mk (s.toList.map fun c => if !isAllowedToolNameChar c then '_' else c)
  else s

/-- Embeds the truncation step (lines 141-144): a name longer than 63
characters becomes its first 28 characters, `"___"`, and its last 32
characters. -/
def truncated_tool_name (s : String) : String :=
  if 63 < s.length then
    String.mk (s.toList.take 28) ++ "___" ++ String.mk (s.toList.drop (s.toList.length - 32))
  else s

/-- Embeds the full name computation of `_discover_with_session`
(lines 132-144): sanitize, prefix the server name on a registry collision,
then truncate. -/
def tool_name_for_model (server_name : String) (registry_names : List String)
    (tool_name : String) : String :=
  let n1 := sanitized_tool_name tool_name
  let n2 := if registry_names.contains n1 then server_name ++ "__" ++ n1 else n1
  truncated_tool_name n2

/-- Whether every character of the name lies in `[a-zA-Z0-9_.-]`. -/
def isSanitizedToolName (s : String) : Bool :=
  s.toList.all isAllowedToolNameChar

theorem strToList_append (a b : String) : (a ++ b).toList = a.toList ++ b.toList := by
  cases a
  cases b
  rfl

theorem strLength_toList (s : String) : s.length = s.toList.length := rfl

theorem strToList_mk (l : List Char) : (String.mk l).toList = l := rfl

theorem sanitized_tool_name_sanitized (s : String) :
    isSanitizedToolName (sanitized_tool_name s) = true := by
  unfold sanitized_tool_name
  split
  · next h =>
    unfold isSanitizedToolName
    rw [strToList_mk, List.all_eq_true]
    intro c hc
    obtain ⟨c', _, rfl⟩ := List.mem_map.mp hc
    by_cases hb : isAllowedToolNameChar c' = true
    · simp [hb]
    · simp only [Bool.not_eq_true] at hb
      simp [hb]
      decide
  · next h =>
    unfold isSanitizedToolName
    rw [List.all_eq_true]
    intro c hc
    rcases List.any_eq_false.mp (Bool.not_eq_true _ ▸ h) c hc with h2
    simpa using h2

theorem truncated_tool_name_sanitized (s : String)
    (h : isSanitizedToolName s = true) :
    isSanitizedToolName (truncated_tool_name s) = true := by
  unfold truncated_tool_name
  split
  · unfold isSanitizedToolName at h ⊢
    simp only [strToList_append, strToList_mk, List.all_append, Bool.and_eq_true]
    refine ⟨⟨?_, by decide⟩, ?_⟩
    · rw [List.all_eq_true]
      intro c hc
      exact List.all_eq_true.mp h c (List.take_subset _ _ hc)
    · rw [List.all_eq_true]
      intro c hc
      exact List.all_eq_true.mp h c (List.drop_subset _ _ hc)
  · exact h

theorem truncated_tool_name_length (s : String) :
    (truncated_tool_name s).length ≤ 63 := by
  unfold truncated_tool_name
  split
  · next h =>
    rw [strLength_toList] at h
    simp only [strLength_toList, strToList_append, strToList_mk, List.length_append,
      List.length_take, List.length_drop]
    have h3 : ("___" : String).toList.length = 3 := by decide
    rw [h3]
    omega
  · next h => omega

/-- Claim C9 (corrected): the registered name of a discovered remote tool
always has length at most 63; it matches the character set `[A-Za-z0-9_.-]`
whenever no collision occurs, and also whenever the server name itself
matches that set; a collision with an already-registered name is
disambiguated by prefixing `server_name ++ "__"` (before truncation).  The
unconditional character-set claim is false because the collision prefix
copies the server name verbatim — see the counterexample. -/
theorem mcp_tool_name_sanitization_amended (server_name : String)
    (registry_names : List String) (tool_name : String) :
    ((tool_name_for_model server_name registry_names tool_name).length ≤ 63)
    ∧ (registry_names.contains (sanitized_tool_name tool_name) = false →
        isSanitizedToolName (tool_name_for_model server_name registry_names tool_name)
          = true)
    ∧ (registry_names.contains (sanitized_tool_name tool_name) = true →
        tool_name_for_model server_name registry_names tool_name
          = truncated_tool_name (server_name ++ "__" ++ sanitized_tool_name tool_name))
    ∧ (isSanitizedToolName server_name = true →
        isSanitizedToolName (tool_name_for_model server_name registry_names tool_name)
          = true) := by
  refine ⟨truncated_tool_name_length _, ?_, ?_, ?_⟩
  · intro h
    simp only [tool_name_for_model]
    rw [h]
    simp only [Bool.false_eq_true, if_false]
    exact truncated_tool_name_sanitized _ (sanitized_tool_name_sanitized _)
  · intro h
    simp only [tool_name_for_model]
    rw [h]
    simp
  · intro hs
    simp only [tool_name_for_model]
    by_cases h : registry_names.contains (sanitized_tool_name tool_name) = true
    · rw [h]
      simp only [if_true]
      refine truncated_tool_name_sanitized _ ?_
      unfold isSanitizedToolName at hs ⊢
      simp only [strToList_append, List.all_append, Bool.and_eq_true]
      exact ⟨⟨hs, by decide⟩, sanitized_tool_name_sanitized tool_name⟩
    · rw [Bool.not_eq_true] at h
      rw [h]
      simp only [Bool.false_eq_true, if_false]
      exact truncated_tool_name_sanitized _ (sanitized_tool_name_sanitized _)

/-- Witness for `mcp_tool_name_sanitization_amended` at a concrete
discovery: no collision for `"my tool"` against a registry containing
`"other"`. -/
theorem mcp_tool_name_sanitization_amended_witness :
    ((tool_name_for_model "srv" ["other"] "my tool").length ≤ 63)
    ∧ isSanitizedToolName (tool_name_for_model "srv" ["other"] "my tool") = true :=
  ⟨(mcp_tool_name_sanitization_amended "srv" ["other"] "my tool").1,
   (mcp_tool_name_sanitization_amended "srv" ["other"] "my tool").2.1 (by decide)⟩

/-- Claim C9 counterexample: with server name `"my server"` and a registry
already containing `"t"`, the discovered tool `"t"` is registered as
`"my server__t"`, which contains a space and therefore does not match
`[A-Za-z0-9_.-]`. -/
theorem mcp_tool_name_charset_cex :
    tool_name_for_model "my server" ["t"] "t" = "my server__t"
    ∧ isSanitizedToolName "my server__t" = false := by
  refine ⟨by decide, by decide⟩

/-! ## Streaming part collection and call-id assignment
(`core/nodes/chat_nodes.py`, `call_model_node`, lines 292-331)

The streaming loop iterates over the chunks of the model stream and, for
the parts of each chunk's first candidate, dispatches on thought /
function-call / text, assigning each collected function call the id
`f"call_{len(tool_calls)}"`.  The stream is modelled as the list of the
per-chunk part lists. -/

/-- The accumulators of the streaming loop (lines 292-295). -/
structure StreamCollectState where
  model_parts : List Part
  thinking_parts : List Part
  tool_calls : List ToolCallRequestInfo

/-- Embeds the per-part dispatch of the streaming loop (lines 305-331):
thought parts go to `thinking_parts`; function-call parts are collected as
`ToolCallRequestInfo` with `call_id = "call_" ++ repr (len tool_calls)` and
`is_client_initiated = False`; text parts and all remaining parts are both
appended to `model_parts` (the two source branches differ only in the
emitted streaming events, which are not modelled). -/
def process_stream_part (st : StreamCollectState) (part : Part) : StreamCollectState :=
  if part.thoughtTruthy then
    { st with thinking_parts := st.thinking_parts ++ [part] }
  else
    match part.function_call with
    | some func_call =>
      { st with tool_calls := st.tool_calls ++
          [⟨"call_" ++ Nat.repr st.tool_calls.length, func_call.name, func_call.args,
            false⟩] }
    | none => { st with model_parts := st.model_parts ++ [part] }

/-- Embeds the chunk loop (lines 298-303) over a whole model turn: fold the
per-part dispatch over every part of every chunk, starting from empty
accumulators. -/
def collect_stream_parts (chunks : List (List Part)) : StreamCollectState :=
  chunks.foldl (fun st parts => parts.foldl process_stream_part st) ⟨[], [], []⟩

/-- The call id assigned to the i-th collected function call of a turn. -/
def streamCallId (i : Nat) : String := "call_" ++ Nat.repr i

/-! Decimal-representation helpers: `Nat.repr` is injective.  `natDigits`
re-derives the digit list of `Nat.toDigitsCore` by structural value
recursion, so that the fuelled core function can be reasoned about. -/

/-- Most-significant-first decimal digit characters of a number. -/
def natDigits (n : Nat) : List Char :=
  if _h : n < 10 then [Nat.digitChar n]
  else natDigits (n / 10) ++ [Nat.digitChar (n % 10)]
termination_by n
decreasing_by
  exact Nat.div_lt_self (by omega) (by omega)

theorem toDigitsCore_eq_natDigits (fuel : Nat) :
    ∀ (n : Nat) (ds : List Char), n < fuel →
      Nat.toDigitsCore 10 fuel n ds = natDigits n ++ ds := by
  induction fuel with
  | zero => intro n ds h; omega
  | succ fuel ih =>
    intro n ds h
    simp only [Nat.toDigitsCore]
    by_cases h0 : n / 10 = 0
    · rw [if_pos h0]
      have hn : n < 10 := by omega
      unfold natDigits
      rw [dif_pos hn, Nat.mod_eq_of_lt hn]
      rfl
    · rw [if_neg h0]
      have hlt : n / 10 < fuel := by omega
      rw [ih (n / 10) (Nat.digitChar (n % 10) :: ds) hlt]
      conv_rhs => rw [natDigits]
      rw [dif_neg (by omega)]
      rw [List.append_assoc]
      rfl

/-- Numeric value of a decimal digit character. -/
def digitVal (c : Char) : Nat := c.toNat - 48

theorem digitVal_digitChar (d : Nat) (h : d < 10) :
    digitVal (Nat.digitChar d) = d := by
  interval_cases d <;> rfl

theorem foldl_natDigits (n : Nat) :
    ∀ a : Nat,
      (natDigits n).foldl (fun acc c => 10 * acc + digitVal c) a
        = a * 10 ^ (natDigits n).length + n := by
  induction n using Nat.strong_induction_on with
  | _ n ih =>
    intro a
    by_cases h : n < 10
    · unfold natDigits
      rw [dif_pos h]
      simp only [List.foldl_cons, List.foldl_nil, List.length_cons, List.length_nil,
        pow_one]
      rw [digitVal_digitChar n h]
      omega
    · unfold natDigits
      rw [dif_neg h]
      rw [List.foldl_append, List.length_append]
      rw [ih (n / 10) (Nat.div_lt_self (by omega) (by omega)) a]
      simp only [List.foldl_cons, List.foldl_nil, List.length_cons, List.length_nil]
      rw [digitVal_digitChar (n % 10) (by omega)]
      have hdm := Nat.div_add_mod n 10
      generalize (natDigits (n / 10)).length = L
      calc 10 * (a * 10 ^ L + n / 10) + n % 10
          = a * 10 ^ (L + (0 + 1)) + (10 * (n / 10) + n % 10) := by ring
        _ = a * 10 ^ (L + (0 + 1)) + n := by rw [hdm]

theorem natDigits_inj {m n : Nat} (h : natDigits m = natDigits n) : m = n := by
  have hm := foldl_natDigits m 0
  have hn := foldl_natDigits n 0
  rw [h] at hm
  simp only [Nat.zero_mul, Nat.zero_add] at hm hn
  rw [hm] at hn
  exact hn

theorem natDigits_eq_toDigits (n : Nat) : Nat.toDigits 10 n = natDigits n := by
  unfold Nat.toDigits
  rw [toDigitsCore_eq_natDigits (n + 1) n [] (by omega), List.append_nil]

theorem nat_repr_inj {m n : Nat} (h : Nat.repr m = Nat.repr n) : m = n := by
  unfold Nat.repr at h
  have h2 : Nat.toDigits 10 m = Nat.toDigits 10 n := by
    have h3 := congrArg String.data h
    simpa [List.asString] using h3
  rw [natDigits_eq_toDigits, natDigits_eq_toDigits] at h2
  exact natDigits_inj h2

theorem string_mk_data (s : String) : String.mk s.data = s := by
  cases s
  rfl

theorem streamCallId_inj : Function.Injective streamCallId := by
  intro i j h
  unfold streamCallId at h
  have h2 := congrArg String.toList h
  rw [strToList_append, strToList_append] at h2
  have h3 : (Nat.repr i).toList = (Nat.repr j).toList :=
    List.append_cancel_left h2
  have h4 : Nat.repr i = Nat.repr j := by
    have := congrArg String.mk h3
    rwa [string_mk_data, string_mk_data] at this
  exact nat_repr_inj h4

theorem process_stream_part_ids (st : StreamCollectState) (part : Part)
    (h : st.tool_calls.map (fun tc => tc.call_id)
        = (List.range st.tool_calls.length).map streamCallId) :
    (process_stream_part st part).tool_calls.map (fun tc => tc.call_id)
      = (List.range (process_stream_part st part).tool_calls.length).map streamCallId := by
  unfold process_stream_part
  split
  · exact h
  · split
    · simp only [List.map_append, List.length_append, List.map_cons, List.map_nil,
        List.length_cons, List.length_nil]
      rw [h]
      have : st.tool_calls.length + (0 + 1) = st.tool_calls.length + 1 := by omega
      rw [this, List.range_succ, List.map_append]
      rfl
    · exact h

theorem foldl_parts_ids (parts : List Part) :
    ∀ st : StreamCollectState,
      st.tool_calls.map (fun tc => tc.call_id)
          = (List.range st.tool_calls.length).map streamCallId →
      ((parts.foldl process_stream_part st).tool_calls.map (fun tc => tc.call_id)
        = (List.range (parts.foldl process_stream_part st).tool_calls.length).map
            streamCallId) := by
  induction parts with
  | nil => intro st h; exact h
  | cons p rest ih =>
    intro st h
    exact ih (process_stream_part st p) (process_stream_part_ids st p h)

theorem foldl_chunks_ids (chunks : List (List Part)) :
    ∀ st : StreamCollectState,
      st.tool_calls.map (fun tc => tc.call_id)
          = (List.range st.tool_calls.length).map streamCallId →
      ((chunks.foldl (fun st parts => parts.foldl process_stream_part st) st).tool_calls.map
            (fun tc => tc.call_id)
        = (List.range
            (chunks.foldl (fun st parts => parts.foldl process_stream_part st)
              st).tool_calls.length).map streamCallId) := by
  induction chunks with
  | nil => intro st h; exact h
  | cons parts rest ih =>
    intro st h
    exact ih (parts.foldl process_stream_part st) (foldl_parts_ids parts st h)

/-- Claim C10 (confirmed): in a single model turn, the call ids of the
collected function calls are exactly `call_0, call_1, ...` in order of
appearance, hence pairwise distinct within the turn.  The ids are a function
of the turn's parts alone and the numbering restarts from `call_0` on every
invocation, so ids are not unique across turns. -/
theorem call_ids_are_sequential (chunks : List (List Part)) :
    ((collect_stream_parts chunks).tool_calls.map (fun tc => tc.call_id)
        = (List.range (collect_stream_parts chunks).tool_calls.length).map streamCallId)
    ∧ ((collect_stream_parts chunks).tool_calls.map (fun tc => tc.call_id)).Nodup := by
  have hmain : (collect_stream_parts chunks).tool_calls.map (fun tc => tc.call_id)
      = (List.range (collect_stream_parts chunks).tool_calls.length).map streamCallId :=
    foldl_chunks_ids chunks ⟨[], [], []⟩ rfl
  refine ⟨hmain, ?_⟩
  rw [hmain]
  exact (List.nodup_range _).map streamCallId_inj

end GeminiCli
